import Mathlib

set_option linter.unusedVariables false

deriving instance DecidableEq for Except

/-!
Verification of the BitBet session backend (src/backend.py).

The backend is shallowly embedded: SQLite rows become a list of records,
each HTTP endpoint becomes a pure function from (config, current time,
optional bearer token, store) to (response, store), and JWT
encoding/decoding is modelled by a token structure carrying its claims
together with the key it was signed with.  All error responses are
modelled exactly as the code produces them: an HTTP status code plus the
detail string.
-/

namespace BitBet

/-- An HTTP error response, as raised by `HTTPException(status, detail)`. -/
structure HTTPError where
  status : Nat
  detail : String
deriving DecidableEq, Repr

/-- The JWT claim set (`SessionClaims` in backend.py). -/
structure SessionClaims where
  sub : String
  sid : String
  jti : String
  iss : String
  aud : String
  iat : Int
  exp : Int
deriving DecidableEq, Repr

/-- A signed token: its claims plus the key it was signed with.  A
signature verifies exactly when the verifying secret equals `key`. -/
structure Token where
  claims : SessionClaims
  key : String
deriving DecidableEq, Repr

/-- One row of the `sessions` table. -/
structure Record where
  session_id : String
  user_id : Int
  created_at : Int
  last_active : Int
  active : Bool
  jti : String
deriving DecidableEq, Repr

/-- The sessions table: a list of rows.  `session_id` is the primary
key; uniqueness is enforced where `INSERT` happens (see `applyOp`). -/
abbrev Store := List Record

/-- The environment configuration: `SHARED_SECRET`, `JWT_ISS`, `JWT_AUD`,
`SESSION_IDLE_TIMEOUT`. -/
structure Config where
  secret : String
  iss : String
  aud : String
  idle_timeout : Int
deriving DecidableEq, Repr

/-- `make_token` from backend.py: signs the claim set with the shared
secret; `iat = now`, `exp = now + ttl_seconds`. -/
def make_token (cfg : Config) (user_id : Int) (session_id jti : String)
    (nowT ttl_seconds : Int) : Token :=
  { claims :=
      { sub := toString user_id
        sid := session_id
        jti := jti
        iss := cfg.iss
        aud := cfg.aud
        iat := nowT
        exp := nowT + ttl_seconds }
    key := cfg.secret }

/-- `parse_auth_token` from backend.py.  `none` models a missing or
non-Bearer Authorization header.  `jwt.decode` checks the signature,
issuer, audience and hard expiry (valid while `now < exp`); the
surrounding `except Exception` maps every decode failure, expiry
included, to the single response `401 "Invalid token"`. -/
def parse_auth_token (cfg : Config) (nowT : Int) (auth : Option Token) :
    Except HTTPError SessionClaims :=
  match auth with
  | none => .error ⟨401, "Missing bearer token"⟩
  | some t =>
      if t.key == cfg.secret && t.claims.iss == cfg.iss && t.claims.aud == cfg.aud
          && decide (nowT < t.claims.exp) then
        .ok t.claims
      else
        .error ⟨401, "Invalid token"⟩

/-- The row filter `WHERE session_id=? AND jti=?` used by the SELECT in
`heartbeat` and `me` and by the UPDATE in `end_session`. -/
def matchRow (sid jti : String) (r : Record) : Bool :=
  r.session_id == sid && r.jti == jti

/-- Row transformer of `UPDATE sessions SET last_active=? WHERE session_id=?`. -/
def touchF (sid : String) (nowT : Int) (q : Record) : Record :=
  if q.session_id == sid then { q with last_active := nowT } else q

/-- Row transformer of `UPDATE sessions SET active=0 WHERE session_id=? AND jti=?`. -/
def deactMatchF (sid jti : String) (q : Record) : Record :=
  if matchRow sid jti q then { q with active := false } else q

/-- Row transformer of `UPDATE sessions SET active=0 WHERE session_id=?`. -/
def deactSidF (sid : String) (q : Record) : Record :=
  if q.session_id == sid then { q with active := false } else q

/-- Row transformer of the reaper's
`UPDATE sessions SET active=0 WHERE active=1 AND last_active<cutoff`. -/
def sweepF (cutoff : Int) (q : Record) : Record :=
  if q.active && decide (q.last_active < cutoff) then { q with active := false } else q

/-- Success body of `POST /api/sessions/heartbeat`:
`{"ok": True, "remaining_idle_seconds": SESSION_IDLE_TIMEOUT}`. -/
structure HeartbeatOut where
  ok : Bool
  remaining_idle_seconds : Int
deriving DecidableEq, Repr

/-- Success body of `POST /api/sessions/end`: `{"ok": True}`. -/
structure OkOut where
  ok : Bool
deriving DecidableEq, Repr

/-- Success body of `GET /api/me`. -/
structure MeOut where
  user_id : String
  session_id : String
deriving DecidableEq, Repr

/-- Success body of `POST /api/sessions/create` (the derived front-end
URL is presentation plumbing and is not modelled). -/
structure CreateSessionOut where
  session_id : String
  token : Token
  expires_idle_seconds : Int
deriving DecidableEq, Repr

/-- `create_session` from backend.py: mint a token for fresh
`s_id`/`jti` (supplied by the environment, standing for the uuid4
draws), then INSERT a row with `active=1`, `created_at=last_active=now`.
The hard TTL is the fixed `24*3600` of the code. -/
def create_session (cfg : Config) (nowT : Int) (user_id : Int) (s_id jti : String)
    (st : Store) : CreateSessionOut × Store :=
  let tkn := make_token cfg user_id s_id jti nowT (24 * 3600)
  (⟨s_id, tkn, cfg.idle_timeout⟩,
   st ++ [{ session_id := s_id, user_id := user_id, created_at := nowT,
            last_active := nowT, active := true, jti := jti }])

/-- `heartbeat` from backend.py: parse the token, SELECT the row by
`(session_id, jti)`, fail `401 "Session not found"` if absent, fail
`410 "Session ended"` if inactive, otherwise set `last_active = now`
(UPDATE by `session_id` alone) and answer with the full idle window. -/
def heartbeat (cfg : Config) (nowT : Int) (auth : Option Token) (st : Store) :
    Except HTTPError HeartbeatOut × Store :=
  match parse_auth_token cfg nowT auth with
  | .error e => (.error e, st)
  | .ok claims =>
      match st.find? (matchRow claims.sid claims.jti) with
      | none => (.error ⟨401, "Session not found"⟩, st)
      | some r =>
          if !r.active then
            (.error ⟨410, "Session ended"⟩, st)
          else
            (.ok ⟨true, cfg.idle_timeout⟩, st.map (touchF claims.sid nowT))

/-- `end_session` from backend.py: parse the token, then run
`UPDATE sessions SET active=0 WHERE session_id=? AND jti=?` and answer
`{"ok": True}` unconditionally. -/
def end_session (cfg : Config) (nowT : Int) (auth : Option Token) (st : Store) :
    Except HTTPError OkOut × Store :=
  match parse_auth_token cfg nowT auth with
  | .error e => (.error e, st)
  | .ok claims =>
      (.ok ⟨true⟩, st.map (deactMatchF claims.sid claims.jti))

/-- `me` from backend.py (`GET /api/me`): parse, SELECT by
`(session_id, jti)`, fail `401` if absent, `410 "Session ended"` if
inactive; then the lazy idle check: if `now - last_active > idle_timeout`
deactivate the row (UPDATE by `session_id`) and fail
`410 "Session expired"`; otherwise answer the identity without touching
`last_active`. -/
def me (cfg : Config) (nowT : Int) (auth : Option Token) (st : Store) :
    Except HTTPError MeOut × Store :=
  match parse_auth_token cfg nowT auth with
  | .error e => (.error e, st)
  | .ok claims =>
      match st.find? (matchRow claims.sid claims.jti) with
      | none => (.error ⟨401, "Session not found"⟩, st)
      | some r =>
          if !r.active then
            (.error ⟨410, "Session ended"⟩, st)
          else if cfg.idle_timeout < nowT - r.last_active then
            (.error ⟨410, "Session expired"⟩, st.map (deactSidF claims.sid))
          else
            (.ok ⟨claims.sub, claims.sid⟩, st)

/-- One pass of `cleanup_loop` from backend.py: the reaper's sweep with
`cutoff = now - SESSION_IDLE_TIMEOUT`. -/
def sweep_idle (cfg : Config) (nowT : Int) (st : Store) : Store :=
  st.map (sweepF (nowT - cfg.idle_timeout))

/-- The operations that can touch the sessions table. -/
inductive Op where
  | createOp (user_id : Int) (s_id jti : String)
  | heartbeatOp (auth : Option Token)
  | endOp (auth : Option Token)
  | meOp (auth : Option Token)
  | sweepOp
deriving Repr

/-- Store effect of one operation.  For `createOp`, a duplicate
`session_id` violates the PRIMARY KEY constraint: the INSERT raises and
nothing is committed, so the store is unchanged. -/
def applyOp (cfg : Config) (nowT : Int) (op : Op) (st : Store) : Store :=
  match op with
  | .createOp uid sid jti =>
      if st.any (fun r => r.session_id == sid) then st
      else (create_session cfg nowT uid sid jti st).2
  | .heartbeatOp auth => (heartbeat cfg nowT auth st).2
  | .endOp auth => (end_session cfg nowT auth st).2
  | .meOp auth => (me cfg nowT auth st).2
  | .sweepOp => sweep_idle cfg nowT st

/-- Store effect of a sequence of timestamped operations. -/
def applyOps (cfg : Config) (ops : List (Int × Op)) (st : Store) : Store :=
  ops.foldl (fun s p => applyOp cfg p.1 p.2 s) st

/-- The four row fields no UPDATE statement of the backend ever writes. -/
def immutFieldsEq (q q' : Record) : Prop :=
  q'.session_id = q.session_id ∧ q'.user_id = q.user_id ∧
  q'.created_at = q.created_at ∧ q'.jti = q.jti

/-- A row transformer is tame when it keeps the immutable fields and
never resurrects an inactive row. -/
def tameF (f : Record → Record) : Prop :=
  ∀ q, immutFieldsEq q (f q) ∧ (q.active = false → (f q).active = false)

/-- Every row carrying this `(session_id, jti)` pair is inactive, while
the `session_id` itself is still present in the table. -/
def tokenDead (st : Store) (sid jti : String) : Prop :=
  (∃ r ∈ st, r.session_id = sid) ∧
  ∀ r ∈ st, r.session_id = sid → r.jti = jti → r.active = false

/-- The old rows are all still there (no row deleted), at their
positions, with their immutable fields intact. -/
def storeFramePreserved (st st' : Store) : Prop :=
  st.length ≤ st'.length ∧
  ∀ i : Nat, ∀ h : i < st.length, ∀ h' : i < st'.length,
    immutFieldsEq (st.get ⟨i, h⟩) (st'.get ⟨i, h'⟩)

/-- Positionwise: a row that was inactive before is still inactive. -/
def activeMonotone (st st' : Store) : Prop :=
  ∀ i : Nat, ∀ h : i < st.length, ∀ h' : i < st'.length,
    (st.get ⟨i, h⟩).active = false → (st'.get ⟨i, h'⟩).active = false

/-- Same rows, positionwise, up to the `active` flag: length,
`last_active` and the immutable fields are all unchanged. -/
def onlyActiveChanged (st st' : Store) : Prop :=
  st'.length = st.length ∧
  ∀ i : Nat, ∀ h : i < st.length, ∀ h' : i < st'.length,
    (st'.get ⟨i, h'⟩).last_active = (st.get ⟨i, h⟩).last_active ∧
    immutFieldsEq (st.get ⟨i, h⟩) (st'.get ⟨i, h'⟩)

/-! ### Concrete fixtures used by counterexamples and witnesses -/

/-- A concrete configuration (the code's default issuer and audience,
the default 300-second idle timeout). -/
def cfgEx : Config := ⟨"s3cr3t", "bitbet", "bitbet-web", 300⟩

/-- A concrete session row, created at time 0. -/
def rEx : Record := ⟨"sid1", 42, 0, 0, true, "jti1"⟩

/-- The token minted for `rEx` (24h hard TTL, as in the code). -/
def tokEx : Token := make_token cfgEx 42 "sid1" "jti1" 0 86400

/-- A correctly signed token for the same session but a different `jti`. -/
def tokEx2 : Token := make_token cfgEx 42 "sid1" "jti2" 0 86400

/-- `tokEx` with a signature that does not verify under `cfgEx.secret`. -/
def tokBadKey : Token := { claims := tokEx.claims, key := "wrong" }

/-! ### Helper lemmas -/

theorem immutFieldsEq_refl (q : Record) : immutFieldsEq q q :=
  ⟨rfl, rfl, rfl, rfl⟩

theorem immutFieldsEq_trans {a b c : Record}
    (h1 : immutFieldsEq a b) (h2 : immutFieldsEq b c) : immutFieldsEq a c :=
  ⟨h2.1.trans h1.1, h2.2.1.trans h1.2.1, h2.2.2.1.trans h1.2.2.1, h2.2.2.2.trans h1.2.2.2⟩

theorem tameF_id : tameF id := fun q => ⟨immutFieldsEq_refl q, fun h => h⟩

theorem tameF_touchF (sid : String) (nowT : Int) : tameF (touchF sid nowT) := by
  intro q
  unfold touchF
  split <;> exact ⟨⟨rfl, rfl, rfl, rfl⟩, fun h => h⟩

theorem tameF_deactMatchF (sid jti : String) : tameF (deactMatchF sid jti) := by
  intro q
  unfold deactMatchF
  split
  · exact ⟨⟨rfl, rfl, rfl, rfl⟩, fun _ => rfl⟩
  · exact ⟨⟨rfl, rfl, rfl, rfl⟩, fun h => h⟩

theorem tameF_deactSidF (sid : String) : tameF (deactSidF sid) := by
  intro q
  unfold deactSidF
  split
  · exact ⟨⟨rfl, rfl, rfl, rfl⟩, fun _ => rfl⟩
  · exact ⟨⟨rfl, rfl, rfl, rfl⟩, fun h => h⟩

theorem tameF_sweepF (cutoff : Int) : tameF (sweepF cutoff) := by
  intro q
  unfold sweepF
  split
  · exact ⟨⟨rfl, rfl, rfl, rfl⟩, fun _ => rfl⟩
  · exact ⟨⟨rfl, rfl, rfl, rfl⟩, fun h => h⟩

/-- Inverting a successful `parse_auth_token`: the header was present and
the token is signed with the secret, carries the configured issuer and
audience, and its hard expiry has not passed; the returned claims are the
token's own. -/
theorem parse_ok_elim (cfg : Config) (nowT : Int) (auth : Option Token) (c : SessionClaims)
    (h : parse_auth_token cfg nowT auth = .ok c) :
    ∃ t, auth = some t ∧ c = t.claims ∧ t.key = cfg.secret ∧ t.claims.iss = cfg.iss ∧
      t.claims.aud = cfg.aud ∧ nowT < t.claims.exp := by
  cases auth with
  | none => simp [parse_auth_token] at h
  | some t =>
      refine ⟨t, rfl, ?_⟩
      simp only [parse_auth_token] at h
      by_cases hc : (t.key == cfg.secret && t.claims.iss == cfg.iss
          && t.claims.aud == cfg.aud && decide (nowT < t.claims.exp)) = true
      · rw [if_pos hc] at h
        simp only [Bool.and_eq_true, beq_iff_eq, decide_eq_true_eq] at hc
        cases h
        exact ⟨rfl, hc.1.1.1, hc.1.1.2, hc.1.2, hc.2⟩
      · rw [if_neg hc] at h
        cases h

/-- A freshly minted token parses successfully while its hard expiry has
not passed. -/
theorem parse_make_token (cfg : Config) (uid : Int) (sid jti : String) (t0 nowT ttl : Int)
    (h : nowT < t0 + ttl) :
    parse_auth_token cfg nowT (some (make_token cfg uid sid jti t0 ttl)) =
      .ok (make_token cfg uid sid jti t0 ttl).claims := by
  simp [parse_auth_token, make_token, h]

/-- The store side of `heartbeat`: unchanged, or a `last_active` touch. -/
theorem heartbeat_state (cfg : Config) (nowT : Int) (auth : Option Token) (st : Store) :
    (heartbeat cfg nowT auth st).2 = st ∨
      ∃ sid, (heartbeat cfg nowT auth st).2 = st.map (touchF sid nowT) := by
  unfold heartbeat
  split
  · exact Or.inl rfl
  · split
    · exact Or.inl rfl
    · split
      · exact Or.inl rfl
      · exact Or.inr ⟨_, rfl⟩

/-- The store side of `end_session`: unchanged, or the matched rows
deactivated. -/
theorem end_session_state (cfg : Config) (nowT : Int) (auth : Option Token) (st : Store) :
    (end_session cfg nowT auth st).2 = st ∨
      ∃ sid jti, (end_session cfg nowT auth st).2 = st.map (deactMatchF sid jti) := by
  unfold end_session
  split
  · exact Or.inl rfl
  · exact Or.inr ⟨_, _, rfl⟩

/-- The store side of `me`: unchanged, or one session deactivated by the
lazy idle check. -/
theorem me_state (cfg : Config) (nowT : Int) (auth : Option Token) (st : Store) :
    (me cfg nowT auth st).2 = st ∨
      ∃ sid, (me cfg nowT auth st).2 = st.map (deactSidF sid) := by
  unfold me
  split
  · exact Or.inl rfl
  · split
    · exact Or.inl rfl
    · split
      · exact Or.inl rfl
      · split
        · exact Or.inr ⟨_, rfl⟩
        · exact Or.inl rfl

/-- Every operation either rewrites the table rowwise through a tame
transformer, or appends one fresh active row. -/
theorem applyOp_shape (cfg : Config) (nowT : Int) (op : Op) (st : Store) :
    (∃ f, tameF f ∧ applyOp cfg nowT op st = st.map f) ∨
    (∃ rec, rec.active = true ∧ (∀ r ∈ st, r.session_id ≠ rec.session_id) ∧
      applyOp cfg nowT op st = st ++ [rec]) := by
  cases op with
  | createOp uid sid jti =>
      by_cases hdup : st.any (fun r => r.session_id == sid) = true
      · exact Or.inl ⟨id, tameF_id, by simp [applyOp, hdup]⟩
      · right
        refine ⟨⟨sid, uid, nowT, nowT, true, jti⟩, rfl, ?_, ?_⟩
        · intro r hr hEq
          exact hdup (List.any_eq_true.mpr ⟨r, hr, by simpa using hEq⟩)
        · simp [applyOp, hdup, create_session]
  | heartbeatOp auth =>
      rcases heartbeat_state cfg nowT auth st with h | ⟨sid, h⟩
      · exact Or.inl ⟨id, tameF_id, by simpa [applyOp] using h⟩
      · exact Or.inl ⟨touchF sid nowT, tameF_touchF sid nowT, by simpa [applyOp] using h⟩
  | endOp auth =>
      rcases end_session_state cfg nowT auth st with h | ⟨sid, jti, h⟩
      · exact Or.inl ⟨id, tameF_id, by simpa [applyOp] using h⟩
      · exact Or.inl ⟨deactMatchF sid jti, tameF_deactMatchF sid jti, by simpa [applyOp] using h⟩
  | meOp auth =>
      rcases me_state cfg nowT auth st with h | ⟨sid, h⟩
      · exact Or.inl ⟨id, tameF_id, by simpa [applyOp] using h⟩
      · exact Or.inl ⟨deactSidF sid, tameF_deactSidF sid, by simpa [applyOp] using h⟩
  | sweepOp =>
      exact Or.inl ⟨sweepF (nowT - cfg.idle_timeout), tameF_sweepF _, rfl⟩

theorem tokenDead_map (st : Store) (sid jti : String) (f : Record → Record)
    (hf : tameF f) (h : tokenDead st sid jti) : tokenDead (st.map f) sid jti := by
  obtain ⟨⟨r0, hr0, hsid0⟩, hdead⟩ := h
  constructor
  · exact ⟨f r0, List.mem_map_of_mem f hr0, ((hf r0).1.1).trans hsid0⟩
  · intro r' hr' hs hj
    obtain ⟨q, hq, rfl⟩ := List.mem_map.mp hr'
    obtain ⟨⟨hqs, _, _, hqj⟩, hact⟩ := hf q
    exact hact (hdead q hq (hqs.symm.trans hs) (hqj.symm.trans hj))

theorem tokenDead_append (st : Store) (sid jti : String) (rec : Record)
    (hfresh : ∀ r ∈ st, r.session_id ≠ rec.session_id)
    (h : tokenDead st sid jti) : tokenDead (st ++ [rec]) sid jti := by
  obtain ⟨⟨r0, hr0, hsid0⟩, hdead⟩ := h
  refine ⟨⟨r0, List.mem_append_left _ hr0, hsid0⟩, ?_⟩
  intro r' hr' hs hj
  rcases List.mem_append.mp hr' with h1 | h2
  · exact hdead r' h1 hs hj
  · have hrec : r' = rec := by simpa using h2
    subst hrec
    exact absurd (hsid0.trans hs.symm) (hfresh r0 hr0)

/-- A rejected token stays rejected across every single operation. -/
theorem tokenDead_applyOp (cfg : Config) (nowT : Int) (op : Op) (st : Store)
    (sid jti : String) (h : tokenDead st sid jti) :
    tokenDead (applyOp cfg nowT op st) sid jti := by
  rcases applyOp_shape cfg nowT op st with ⟨f, hf, heq⟩ | ⟨rec, _, hfresh, heq⟩
  · rw [heq]; exact tokenDead_map st sid jti f hf h
  · rw [heq]; exact tokenDead_append st sid jti rec hfresh h

theorem applyOps_cons (cfg : Config) (p : Int × Op) (ps : List (Int × Op)) (st : Store) :
    applyOps cfg (p :: ps) st = applyOps cfg ps (applyOp cfg p.1 p.2 st) := rfl

/-- A rejected token stays rejected across every operation sequence. -/
theorem tokenDead_applyOps (cfg : Config) (ops : List (Int × Op)) (st : Store)
    (sid jti : String) (h : tokenDead st sid jti) :
    tokenDead (applyOps cfg ops st) sid jti := by
  induction ops generalizing st with
  | nil => exact h
  | cons p ps ih =>
      rw [applyOps_cons]
      exact ih _ (tokenDead_applyOp cfg p.1 p.2 st sid jti h)

/-- A successful `end_session` kills the token it was called with:
afterwards every `(session_id, jti)`-matching row is inactive, and the
session row is still present. -/
theorem end_session_tokenDead (cfg : Config) (t0 : Int) (auth : Option Token) (st : Store)
    (claims : SessionClaims)
    (hp : parse_auth_token cfg t0 auth = .ok claims)
    (hex : ∃ r ∈ st, r.session_id = claims.sid) :
    tokenDead (end_session cfg t0 auth st).2 claims.sid claims.jti := by
  unfold end_session
  rw [hp]
  constructor
  · obtain ⟨r0, hr0, hs0⟩ := hex
    exact ⟨deactMatchF claims.sid claims.jti r0, List.mem_map_of_mem _ hr0,
      (((tameF_deactMatchF claims.sid claims.jti) r0).1.1).trans hs0⟩
  · intro r' hr' hs hj
    obtain ⟨q, hq, rfl⟩ := List.mem_map.mp hr'
    by_cases hm : matchRow claims.sid claims.jti q = true
    · simp [deactMatchF, hm]
    · exfalso
      simp only [deactMatchF, if_neg hm] at hs hj
      exact hm (by simp [matchRow, hs, hj])

/-- `heartbeat` rejects a dead token: whatever the reason (expiry, row
gone, row inactive), the response is an error. -/
theorem heartbeat_fails_of_tokenDead (cfg : Config) (t1 : Int) (tok : Token) (st : Store)
    (h : tokenDead st tok.claims.sid tok.claims.jti) :
    ∃ e, (heartbeat cfg t1 (some tok) st).1 = .error e := by
  cases hp : parse_auth_token cfg t1 (some tok) with
  | error e => exact ⟨e, by simp [heartbeat, hp]⟩
  | ok c =>
      have hc : c = tok.claims := by
        obtain ⟨t, ht, hc, _⟩ := parse_ok_elim cfg t1 (some tok) c hp
        injection ht with ht2
        rw [hc, ht2]
      subst hc
      cases hf : st.find? (matchRow tok.claims.sid tok.claims.jti) with
      | none => exact ⟨⟨401, "Session not found"⟩, by simp [heartbeat, hp, hf]⟩
      | some r =>
          have hr : r ∈ st := List.mem_of_find?_eq_some hf
          have hpm : matchRow tok.claims.sid tok.claims.jti r = true := List.find?_some hf
          simp only [matchRow, Bool.and_eq_true, beq_iff_eq] at hpm
          have hact : r.active = false := h.2 r hr hpm.1 hpm.2
          exact ⟨⟨410, "Session ended"⟩, by simp [heartbeat, hp, hf, hact]⟩

/-- `me` rejects a dead token as well. -/
theorem me_fails_of_tokenDead (cfg : Config) (t2 : Int) (tok : Token) (st : Store)
    (h : tokenDead st tok.claims.sid tok.claims.jti) :
    ∃ e, (me cfg t2 (some tok) st).1 = .error e := by
  cases hp : parse_auth_token cfg t2 (some tok) with
  | error e => exact ⟨e, by simp [me, hp]⟩
  | ok c =>
      have hc : c = tok.claims := by
        obtain ⟨t, ht, hc, _⟩ := parse_ok_elim cfg t2 (some tok) c hp
        injection ht with ht2
        rw [hc, ht2]
      subst hc
      cases hf : st.find? (matchRow tok.claims.sid tok.claims.jti) with
      | none => exact ⟨⟨401, "Session not found"⟩, by simp [me, hp, hf]⟩
      | some r =>
          have hr : r ∈ st := List.mem_of_find?_eq_some hf
          have hpm : matchRow tok.claims.sid tok.claims.jti r = true := List.find?_some hf
          simp only [matchRow, Bool.and_eq_true, beq_iff_eq] at hpm
          have hact : r.active = false := h.2 r hr hpm.1 hpm.2
          exact ⟨⟨410, "Session ended"⟩, by simp [me, hp, hf, hact]⟩

theorem get_map_eq (st : Store) (f : Record → Record) (i : Nat)
    (h : i < st.length) (h' : i < (st.map f).length) :
    (st.map f).get ⟨i, h'⟩ = f (st.get ⟨i, h⟩) := by
  simp [List.get_eq_getElem]

theorem get_append_left_eq (st : Store) (rec : Record) (i : Nat)
    (h : i < st.length) (h' : i < (st ++ [rec]).length) :
    (st ++ [rec]).get ⟨i, h'⟩ = st.get ⟨i, h⟩ := by
  simp [List.get_eq_getElem, List.getElem_append_left h]

theorem frame_map (st : Store) (f : Record → Record) (hf : tameF f) :
    storeFramePreserved st (st.map f) ∧ activeMonotone st (st.map f) := by
  refine ⟨⟨by simp, ?_⟩, ?_⟩
  · intro i h h'
    rw [get_map_eq st f i h h']
    exact (hf _).1
  · intro i h h' hact
    rw [get_map_eq st f i h h']
    exact (hf _).2 hact

theorem frame_append (st : Store) (rec : Record) :
    storeFramePreserved st (st ++ [rec]) ∧ activeMonotone st (st ++ [rec]) := by
  refine ⟨⟨by simp, ?_⟩, ?_⟩
  · intro i h h'
    rw [get_append_left_eq st rec i h h']
    exact immutFieldsEq_refl _
  · intro i h h' hact
    rw [get_append_left_eq st rec i h h']
    exact hact

/-- One operation: old rows keep their immutable fields and inactive
rows stay inactive. -/
theorem applyOp_frame (cfg : Config) (nowT : Int) (op : Op) (st : Store) :
    storeFramePreserved st (applyOp cfg nowT op st) ∧
      activeMonotone st (applyOp cfg nowT op st) := by
  rcases applyOp_shape cfg nowT op st with ⟨f, hf, heq⟩ | ⟨rec, _, _, heq⟩
  · rw [heq]; exact frame_map st f hf
  · rw [heq]; exact frame_append st rec

/-- Operation sequences: old rows keep their immutable fields and
inactive rows stay inactive. -/
theorem applyOps_frame (cfg : Config) (ops : List (Int × Op)) (st : Store) :
    storeFramePreserved st (applyOps cfg ops st) ∧
      activeMonotone st (applyOps cfg ops st) := by
  induction ops generalizing st with
  | nil =>
      exact ⟨⟨le_refl _, fun i h h' => immutFieldsEq_refl _⟩, fun i h h' hact => hact⟩
  | cons p ps ih =>
      obtain ⟨⟨hlen1, hfields1⟩, hact1⟩ := applyOp_frame cfg p.1 p.2 st
      obtain ⟨⟨hlen2, hfields2⟩, hact2⟩ := ih (applyOp cfg p.1 p.2 st)
      rw [applyOps_cons]
      refine ⟨⟨le_trans hlen1 hlen2, ?_⟩, ?_⟩
      · intro i h h'
        have hm : i < (applyOp cfg p.1 p.2 st).length := lt_of_lt_of_le h hlen1
        exact immutFieldsEq_trans (hfields1 i h hm) (hfields2 i hm h')
      · intro i h h' hact
        have hm : i < (applyOp cfg p.1 p.2 st).length := lt_of_lt_of_le h hlen1
        exact hact2 i hm h' (hact1 i h hm hact)

theorem onlyActiveChanged_refl (st : Store) : onlyActiveChanged st st :=
  ⟨rfl, fun i h h' => ⟨rfl, immutFieldsEq_refl _⟩⟩

theorem onlyActiveChanged_map_deactSidF (st : Store) (sid : String) :
    onlyActiveChanged st (st.map (deactSidF sid)) := by
  refine ⟨by simp, ?_⟩
  intro i h h'
  rw [get_map_eq st (deactSidF sid) i h h']
  unfold deactSidF
  split
  · exact ⟨rfl, rfl, rfl, rfl, rfl⟩
  · exact ⟨rfl, immutFieldsEq_refl _⟩

theorem find?_append_of_none (p : Record → Bool) (l1 l2 : Store)
    (h : l1.find? p = none) : (l1 ++ l2).find? p = l2.find? p := by
  induction l1 with
  | nil => rfl
  | cons a l ih =>
      rw [List.cons_append]
      by_cases hpa : p a = true
      · rw [List.find?_cons_of_pos _ hpa] at h
        cases h
      · rw [List.find?_cons_of_neg _ hpa] at h
        rw [List.find?_cons_of_neg _ hpa]
        exact ih h

/-- Running `heartbeat` when the row is found and active: the session is
touched and the full idle window returned, with no check of how long the
session has already been idle. -/
theorem heartbeat_run (cfg : Config) (nowT : Int) (auth : Option Token) (st : Store)
    (claims : SessionClaims) (r : Record)
    (hp : parse_auth_token cfg nowT auth = .ok claims)
    (hf : st.find? (matchRow claims.sid claims.jti) = some r)
    (ha : r.active = true) :
    heartbeat cfg nowT auth st =
      (.ok ⟨true, cfg.idle_timeout⟩, st.map (touchF claims.sid nowT)) := by
  simp [heartbeat, hp, hf, ha]

/-- Running `me` when the row is found, active and not idle-expired. -/
theorem me_run_ok (cfg : Config) (nowT : Int) (auth : Option Token) (st : Store)
    (claims : SessionClaims) (r : Record)
    (hp : parse_auth_token cfg nowT auth = .ok claims)
    (hf : st.find? (matchRow claims.sid claims.jti) = some r)
    (ha : r.active = true)
    (hidle : ¬ (cfg.idle_timeout < nowT - r.last_active)) :
    me cfg nowT auth st = (.ok ⟨claims.sub, claims.sid⟩, st) := by
  simp [me, hp, hf, ha, hidle]

/-! ### Claim theorems -/

/-- C1 (counterexample): at a concrete input where
`now - last_active > idle_timeout` (1000 - 0 > 300) and the session is
still active, a signature-valid `heartbeat` call does not deactivate the
record and does not fail with `SessionExpired` as the claim states: it
succeeds, returns the idle window, and updates `last_active` to `now`.
The code has no lazy-expiry check in `heartbeat`. -/
theorem heartbeat_lazy_expiry_refuted :
    (1000 : Int) - rEx.last_active > cfgEx.idle_timeout ∧
    rEx.active = true ∧
    parse_auth_token cfgEx 1000 (some tokEx) = .ok tokEx.claims ∧
    (heartbeat cfgEx 1000 (some tokEx) [rEx]).1 = .ok ⟨true, 300⟩ ∧
    (heartbeat cfgEx 1000 (some tokEx) [rEx]).2 = [{ rEx with last_active := 1000 }] := by
  decide

/-- C1 (amended): `heartbeat` performs no idle-timeout check. Whenever
the token parses and the `(session_id, jti)` row exists and is active —
regardless of how long the session has been idle — the call sets the
session's `last_active` to `now` and returns the configured idle-timeout
window; it never fails with `SessionExpired`. (Lazy expiry exists only in
`whoami`; idle sessions are otherwise caught by the background sweep.) -/
theorem heartbeat_touches_regardless_of_idle (cfg : Config) (nowT : Int)
    (auth : Option Token) (st : Store) (claims : SessionClaims) (r : Record)
    (hp : parse_auth_token cfg nowT auth = .ok claims)
    (hf : st.find? (matchRow claims.sid claims.jti) = some r)
    (ha : r.active = true) :
    heartbeat cfg nowT auth st =
      (.ok ⟨true, cfg.idle_timeout⟩, st.map (touchF claims.sid nowT)) :=
  heartbeat_run cfg nowT auth st claims r hp hf ha

/-- C1 witness: the amended statement applied at a concrete input that is
far past its idle timeout. -/
theorem heartbeat_touches_regardless_of_idle_witness :
    heartbeat cfgEx 1000 (some tokEx) [rEx] =
      (.ok ⟨true, cfgEx.idle_timeout⟩, List.map (touchF tokEx.claims.sid 1000) [rEx]) :=
  heartbeat_touches_regardless_of_idle cfgEx 1000 (some tokEx) [rEx] tokEx.claims rEx
    (by decide) (by decide) (by decide)

/-- C2: once `end_session` has been called with a token minted for an
existing session, every later `heartbeat` or `whoami` call presenting
that token fails, whatever operations (creations, heartbeats, session
ends, whoami calls, reaper sweeps) run in between and at whatever times:
no sequence of operations makes the token accepted again. -/
theorem ended_token_always_rejected (cfg : Config) (t0 : Int) (tok : Token) (st0 : Store)
    (claims : SessionClaims)
    (hp : parse_auth_token cfg t0 (some tok) = .ok claims)
    (hex : ∃ r ∈ st0, r.session_id = claims.sid)
    (ops : List (Int × Op)) (t1 t2 : Int) :
    (∃ e1, (heartbeat cfg t1 (some tok)
        (applyOps cfg ops (end_session cfg t0 (some tok) st0).2)).1 = .error e1) ∧
    (∃ e2, (me cfg t2 (some tok)
        (applyOps cfg ops (end_session cfg t0 (some tok) st0).2)).1 = .error e2) := by
  have hc : claims = tok.claims := by
    obtain ⟨t, ht, hc, _⟩ := parse_ok_elim cfg t0 (some tok) claims hp
    injection ht with ht2
    rw [hc, ht2]
  have hdead0 := end_session_tokenDead cfg t0 (some tok) st0 claims hp hex
  have hdead := tokenDead_applyOps cfg ops _ claims.sid claims.jti hdead0
  rw [hc] at hdead
  exact ⟨heartbeat_fails_of_tokenDead cfg t1 tok _ hdead,
    me_fails_of_tokenDead cfg t2 tok _ hdead⟩

/-- C2 witness: concrete run with an intervening sweep and heartbeat. -/
theorem ended_token_always_rejected_witness :
    (∃ e1, (heartbeat cfgEx 20 (some tokEx)
        (applyOps cfgEx [(50, .sweepOp), (60, .heartbeatOp (some tokEx))]
          (end_session cfgEx 10 (some tokEx) [rEx]).2)).1 = .error e1) ∧
    (∃ e2, (me cfgEx 30 (some tokEx)
        (applyOps cfgEx [(50, .sweepOp), (60, .heartbeatOp (some tokEx))]
          (end_session cfgEx 10 (some tokEx) [rEx]).2)).1 = .error e2) :=
  ended_token_always_rejected cfgEx 10 tokEx [rEx] tokEx.claims (by decide)
    ⟨rEx, by decide⟩ [(50, .sweepOp), (60, .heartbeatOp (some tokEx))] 20 30

/-- C3 (counterexample): a correctly signed, unexpired token for an
existing active session but with a different `jti` is rejected with
exactly the same error as a token whose session does not exist at all —
`401 "Session not found"`. There is no distinct `TokenRevoked` error
kind, and existence is not checked before the `jti` comparison (the code
runs one combined `WHERE session_id=? AND jti=?` lookup). -/
theorem jti_mismatch_error_not_distinct :
    rEx.session_id = tokEx2.claims.sid ∧ rEx.jti ≠ tokEx2.claims.jti ∧ rEx.active = true ∧
    parse_auth_token cfgEx 10 (some tokEx2) = .ok tokEx2.claims ∧
    (heartbeat cfgEx 10 (some tokEx2) [rEx]).1 = .error ⟨401, "Session not found"⟩ ∧
    (me cfgEx 10 (some tokEx2) [rEx]).1 = .error ⟨401, "Session not found"⟩ ∧
    (heartbeat cfgEx 10 (some tokEx2) ([] : Store)).1 = .error ⟨401, "Session not found"⟩ := by
  decide

/-- C3 (amended): for a signature-valid token whose `session_id` names an
existing record but whose `jti` differs (so the combined
`(session_id, jti)` lookup finds nothing), `heartbeat` and `whoami` fail
with the same `401 "Session not found"` response that is raised when no
record exists: revocation and nonexistence are indistinguishable. -/
theorem jti_mismatch_reported_as_not_found (cfg : Config) (nowT : Int)
    (auth : Option Token) (st : Store) (claims : SessionClaims)
    (hp : parse_auth_token cfg nowT auth = .ok claims)
    (hmismatch : ∃ r ∈ st, r.session_id = claims.sid ∧ r.jti ≠ claims.jti)
    (hnone : st.find? (matchRow claims.sid claims.jti) = none) :
    (heartbeat cfg nowT auth st).1 = .error ⟨401, "Session not found"⟩ ∧
    (me cfg nowT auth st).1 = .error ⟨401, "Session not found"⟩ := by
  constructor
  · simp [heartbeat, hp, hnone]
  · simp [me, hp, hnone]

/-- C3 witness: the amended statement at the concrete mismatch input. -/
theorem jti_mismatch_reported_as_not_found_witness :
    (heartbeat cfgEx 10 (some tokEx2) [rEx]).1 = .error ⟨401, "Session not found"⟩ ∧
    (me cfgEx 10 (some tokEx2) [rEx]).1 = .error ⟨401, "Session not found"⟩ :=
  jti_mismatch_reported_as_not_found cfgEx 10 (some tokEx2) [rEx] tokEx2.claims
    (by decide) ⟨rEx, by decide⟩ (by decide)

/-- C4: a freshly created session's token is accepted immediately: on the
store exactly as `create_session` left it, both `heartbeat` and `whoami`
with the returned token succeed at the creation time (given the new
`session_id` is fresh, as the uuid draw and the PRIMARY KEY guarantee,
and a nonnegative configured idle timeout). -/
theorem fresh_token_accepted (cfg : Config) (t : Int) (uid : Int) (sid jti : String)
    (st : Store)
    (hfresh : ∀ r ∈ st, r.session_id ≠ sid)
    (htimeout : 0 ≤ cfg.idle_timeout) :
    (heartbeat cfg t (some (create_session cfg t uid sid jti st).1.token)
        (create_session cfg t uid sid jti st).2).1 = .ok ⟨true, cfg.idle_timeout⟩ ∧
    (me cfg t (some (create_session cfg t uid sid jti st).1.token)
        (create_session cfg t uid sid jti st).2).1 = .ok ⟨toString uid, sid⟩ := by
  have hp : parse_auth_token cfg t (some (create_session cfg t uid sid jti st).1.token)
      = .ok (make_token cfg uid sid jti t (24 * 3600)).claims :=
    parse_make_token cfg uid sid jti t t (24 * 3600) (by omega)
  have hnone : st.find? (matchRow sid jti) = none := by
    rw [List.find?_eq_none]
    intro r hr
    simp only [matchRow, Bool.and_eq_true, beq_iff_eq, not_and]
    intro hs _
    exact hfresh r hr hs
  have hfind : ((create_session cfg t uid sid jti st).2).find?
      (matchRow (make_token cfg uid sid jti t (24 * 3600)).claims.sid
        (make_token cfg uid sid jti t (24 * 3600)).claims.jti)
      = some ⟨sid, uid, t, t, true, jti⟩ := by
    show (st ++ [(⟨sid, uid, t, t, true, jti⟩ : Record)]).find? (matchRow sid jti) = _
    rw [find?_append_of_none _ _ _ hnone]
    have hm : matchRow sid jti (⟨sid, uid, t, t, true, jti⟩ : Record) = true := by
      simp [matchRow]
    rw [List.find?_cons_of_pos _ hm]
  constructor
  · rw [heartbeat_run cfg t _ _ _ _ hp hfind rfl]
  · rw [me_run_ok cfg t _ _ _ _ hp hfind rfl (by show ¬ (cfg.idle_timeout < t - t); omega)]
    exact rfl

/-- C4 witness: concrete creation followed by immediate heartbeat and
whoami. -/
theorem fresh_token_accepted_witness :
    (heartbeat cfgEx 0 (some (create_session cfgEx 0 7 "sidZ" "jtiZ" []).1.token)
        (create_session cfgEx 0 7 "sidZ" "jtiZ" []).2).1 = .ok ⟨true, cfgEx.idle_timeout⟩ ∧
    (me cfgEx 0 (some (create_session cfgEx 0 7 "sidZ" "jtiZ" []).1.token)
        (create_session cfgEx 0 7 "sidZ" "jtiZ" []).2).1 = .ok ⟨toString (7 : Int), "sidZ"⟩ :=
  fresh_token_accepted cfgEx 0 7 "sidZ" "jtiZ" [] (by decide) (by decide)

/-- C5: the `active` flag starts `true` at creation (the inserted row is
active), and across every operation sequence (heartbeats, session ends,
whoami calls, reaper sweeps, further creations) a row that is inactive
never becomes active again: `active` only ever falls from `true` to
`false` and then stays `false`. -/
theorem active_flag_true_to_false_only :
    (∀ (cfg : Config) (nowT uid : Int) (sid jti : String) (st : Store), ∃ r : Record,
        (create_session cfg nowT uid sid jti st).2 = st ++ [r] ∧ r.active = true) ∧
    (∀ (cfg : Config) (ops : List (Int × Op)) (st : Store),
        activeMonotone st (applyOps cfg ops st)) :=
  ⟨fun cfg nowT uid sid jti st => ⟨⟨sid, uid, nowT, nowT, true, jti⟩, rfl, rfl⟩,
   fun cfg ops st => (applyOps_frame cfg ops st).2⟩

/-- C5 witness: the monotonicity part applied to a concrete sweep. -/
theorem active_flag_true_to_false_only_witness :
    activeMonotone [rEx] (applyOps cfgEx [(1000, .sweepOp)] [rEx]) :=
  active_flag_true_to_false_only.2 cfgEx [(1000, .sweepOp)] [rEx]

/-- C6 (counterexample): hard expiry is not a distinguishable failure
kind. A well-signed token of the configured issuer and audience checked
after its hard expiry, and a badly signed unexpired token, produce the
identical response `401 "Invalid token"`: the code catches every decode
exception uniformly, so there is no separate `ExpiredToken` result. -/
theorem expired_vs_invalid_not_distinct :
    tokEx.key = cfgEx.secret ∧ tokEx.claims.iss = cfgEx.iss ∧
    tokEx.claims.aud = cfgEx.aud ∧ tokEx.claims.exp ≤ 90000 ∧
    parse_auth_token cfgEx 90000 (some tokEx) = .error ⟨401, "Invalid token"⟩ ∧
    tokBadKey.key ≠ cfgEx.secret ∧ (10 : Int) < tokBadKey.claims.exp ∧
    parse_auth_token cfgEx 10 (some tokBadKey) = .error ⟨401, "Invalid token"⟩ ∧
    parse_auth_token cfgEx 90000 (some tokEx) = parse_auth_token cfgEx 10 (some tokBadKey) := by
  decide

/-- C6 (amended): every token-verification failure — bad signature,
issuer or audience (structural failures verify as bad signatures) as well
as passed hard expiry — yields one and the same response,
`401 "Invalid token"`; the two kinds the claim distinguishes are a single
kind in the code. -/
theorem parse_failure_single_error (cfg : Config) (nowT : Int) (t : Token)
    (h : ¬ (t.key = cfg.secret ∧ t.claims.iss = cfg.iss ∧ t.claims.aud = cfg.aud ∧
        nowT < t.claims.exp)) :
    parse_auth_token cfg nowT (some t) = .error ⟨401, "Invalid token"⟩ := by
  have hc : (t.key == cfg.secret && t.claims.iss == cfg.iss && t.claims.aud == cfg.aud
      && decide (nowT < t.claims.exp)) = false := by
    rw [Bool.eq_false_iff]
    intro hT
    simp only [Bool.and_eq_true, beq_iff_eq, decide_eq_true_eq] at hT
    exact h ⟨hT.1.1.1, hT.1.1.2, hT.1.2, hT.2⟩
  simp [parse_auth_token, hc]

/-- C6 witness: the amended statement applied to the expired token. -/
theorem parse_failure_single_error_witness :
    parse_auth_token cfgEx 90000 (some tokEx) = .error ⟨401, "Invalid token"⟩ :=
  parse_failure_single_error cfgEx 90000 tokEx (by decide)

/-- C7 (counterexample): `end_session` performs no existence or
revocation check after the signature check. With a signature-valid token
and an empty store (no record for its session id) it succeeds with
`{"ok": True}` instead of failing; with a `jti`-mismatched token it also
succeeds while deactivating nothing — the mismatched record stays
active. -/
theorem end_session_checks_refuted :
    parse_auth_token cfgEx 10 (some tokEx) = .ok tokEx.claims ∧
    end_session cfgEx 10 (some tokEx) ([] : Store) = (.ok ⟨true⟩, ([] : Store)) ∧
    parse_auth_token cfgEx 10 (some tokEx2) = .ok tokEx2.claims ∧
    end_session cfgEx 10 (some tokEx2) [rEx] = (.ok ⟨true⟩, [rEx]) ∧
    rEx.active = true := by
  decide

/-- C7 (amended): `end_session` checks only the token's cryptographic
validity (signature / issuer / audience / hard expiry). Once the token
parses it always succeeds with `{"ok": True}`, running the deactivating
UPDATE over the `(session_id, jti)`-matching rows: present rows are
deactivated (an already-ended session included — idempotent), and when no
row matches nothing happens; it never fails for a missing record or a
`jti` mismatch. -/
theorem end_session_only_checks_signature (cfg : Config) (nowT : Int)
    (auth : Option Token) (st : Store) (claims : SessionClaims)
    (hp : parse_auth_token cfg nowT auth = .ok claims) :
    end_session cfg nowT auth st =
      (.ok ⟨true⟩, st.map (deactMatchF claims.sid claims.jti)) := by
  simp [end_session, hp]

/-- C7 witness: the amended statement on the empty store. -/
theorem end_session_only_checks_signature_witness :
    end_session cfgEx 10 (some tokEx) ([] : Store) =
      (.ok ⟨true⟩, List.map (deactMatchF tokEx.claims.sid tokEx.claims.jti) []) :=
  end_session_only_checks_signature cfgEx 10 (some tokEx) [] tokEx.claims (by decide)

theorem deactMatchF_idem (sid jti : String) (q : Record) :
    deactMatchF sid jti (deactMatchF sid jti q) = deactMatchF sid jti q := by
  unfold deactMatchF
  by_cases hm : matchRow sid jti q = true
  · rw [if_pos hm]
    rw [if_pos (show matchRow sid jti { q with active := false } = true from hm)]
  · rw [if_neg hm, if_neg hm]

/-- C8: `end_session` is idempotent. For a valid token of a known
session, calling it twice in succession returns the identical success
response both times, and the store after the second call is exactly the
store after the first. -/
theorem end_session_idempotent (cfg : Config) (nowT : Int) (auth : Option Token)
    (st : Store) (claims : SessionClaims)
    (hp : parse_auth_token cfg nowT auth = .ok claims)
    (hknown : ∃ r ∈ st, r.session_id = claims.sid) :
    end_session cfg nowT auth (end_session cfg nowT auth st).2 =
      end_session cfg nowT auth st := by
  have h1 : end_session cfg nowT auth st
      = (.ok ⟨true⟩, st.map (deactMatchF claims.sid claims.jti)) := by
    simp [end_session, hp]
  have h2 : end_session cfg nowT auth (st.map (deactMatchF claims.sid claims.jti))
      = (.ok ⟨true⟩, (st.map (deactMatchF claims.sid claims.jti)).map
          (deactMatchF claims.sid claims.jti)) := by
    simp [end_session, hp]
  rw [h1, h2, List.map_map]
  rw [show deactMatchF claims.sid claims.jti ∘ deactMatchF claims.sid claims.jti
      = deactMatchF claims.sid claims.jti from funext (deactMatchF_idem claims.sid claims.jti)]

/-- C8 witness: double `end_session` on a concrete live session. -/
theorem end_session_idempotent_witness :
    end_session cfgEx 10 (some tokEx) (end_session cfgEx 10 (some tokEx) [rEx]).2 =
      end_session cfgEx 10 (some tokEx) [rEx] :=
  end_session_idempotent cfgEx 10 (some tokEx) [rEx] tokEx.claims (by decide)
    ⟨rEx, by decide⟩

/-- C9: `whoami` (`GET /api/me`) never updates `last_active`. For every
token and store, the call leaves the row count, every row's
`last_active`, and every row's immutable fields unchanged, whether it
succeeds or fails: only the `active` flag may change (lazy expiry). -/
theorem me_never_touches_last_active (cfg : Config) (nowT : Int)
    (auth : Option Token) (st : Store) :
    onlyActiveChanged st (me cfg nowT auth st).2 := by
  rcases me_state cfg nowT auth st with h | ⟨sid, h⟩
  · rw [h]; exact onlyActiveChanged_refl st
  · rw [h]; exact onlyActiveChanged_map_deactSidF st sid

/-- C9 witness: a concrete idle-expired `me` call (the one path that does
write the store). -/
theorem me_never_touches_last_active_witness :
    onlyActiveChanged [rEx] (me cfgEx 1000 (some tokEx) [rEx]).2 :=
  me_never_touches_last_active cfgEx 1000 (some tokEx) [rEx]

/-- C10: across every operation sequence, every pre-existing record keeps
its `session_id`, `user_id`, `created_at` and `jti` unchanged, and
records are never deleted: the table only grows and each old position
still holds its row (only `last_active` and `active` are mutable). -/
theorem records_immutable_and_never_deleted (cfg : Config) (ops : List (Int × Op))
    (st : Store) : storeFramePreserved st (applyOps cfg ops st) :=
  (applyOps_frame cfg ops st).1

/-- C10 witness: a concrete run with an end and a fresh creation. -/
theorem records_immutable_and_never_deleted_witness :
    storeFramePreserved [rEx]
      (applyOps cfgEx [(10, .endOp (some tokEx)), (20, .createOp 7 "sidZ" "jtiZ")] [rEx]) :=
  records_immutable_and_never_deleted cfgEx
    [(10, .endOp (some tokEx)), (20, .createOp 7 "sidZ" "jtiZ")] [rEx]

end BitBet
